import Mathlib

/-!
Shallow embedding of the QRNG-CLI program (src/src/main.rs) in Lean 4.

The program is a single pipeline: build a URL, perform one HTTP GET, decode
the JSON body, post-process, print.  The embedding models:

* the JSON values and a fuel-based JSON parser together with the two serde
  decoders (`ApiResponse` with `data : Vec<u8>`, `ApiResponseHex` with
  `data : Vec<String>`) as `fromStrApiResponse` / `fromStrApiResponseHex`;
* URL construction for both paths (`lottoUrl`, `fetch_random_array_url`);
* the response handling of `fetch_lotto_numbers` and `fetch_random_array`
  as pure functions of the received HTTP status and raw body text
  (`fetchLottoResult`, `fetchRandomArrayResult`); the network transport
  itself is outside the model, so a transport error does not appear;
* the lottery post-processing pipeline.  Rust's `HashSet` iteration order is
  unspecified, so the embedding takes the realised iteration sequence as an
  oracle `hashIter`; theorems constrain it by `IsHashSetIter`, i.e. it is a
  duplicate-free enumeration of exactly the set's elements;
* the interactive `prompt_for_length` / `prompt_for_block_size` loops as
  functions of the sequence of input lines.

Strings are modelled as `List Char` (Rust `String` is UTF-8 text; all the
relevant operations are character-wise).
-/

/-- JSON values as parsed by serde_json.  A number carries its integer part
and a flag telling whether it was written as a plain integer (no fraction
and no exponent); only plain integers can deserialize into `u8`, so the
numeric value of a float is irrelevant to the model and is not kept. -/
inductive Json where
  | null : Json
  | bool (b : Bool) : Json
  | num (n : Int) (isInt : Bool) : Json
  | str (s : List Char) : Json
  | arr (elems : List Json) : Json
  | obj (fields : List (List Char × Json)) : Json

/-- JSON whitespace, exactly the four characters the JSON grammar allows. -/
def isJsonWs : Char → Bool
  | ' ' => true
  | '\t' => true
  | '\n' => true
  | '\r' => true
  | _ => false

/-- Drop leading JSON whitespace. -/
def skipWs : List Char → List Char
  | [] => []
  | c :: rest => if isJsonWs c then skipWs rest else c :: rest

/-- Numeric value of a decimal digit character. -/
def digitVal (c : Char) : Nat := c.toNat - 48

/-- Split off the leading run of decimal digits. -/
def takeDigits : List Char → (List Char × List Char)
  | [] => ([], [])
  | c :: rest =>
    if c.isDigit then
      let p := takeDigits rest
      (c :: p.1, p.2)
    else ([], c :: rest)

/-- Value of a digit string, most significant digit first. -/
def digitsToNat (ds : List Char) : Nat :=
  ds.foldl (fun a c => a * 10 + digitVal c) 0

/-- Parse an optional JSON fraction part; `true` iff a fraction was present. -/
def parseFrac : List Char → Option (Bool × List Char)
  | '.' :: r =>
    match takeDigits r with
    | ([], _) => none
    | (_, r2) => some (true, r2)
  | s => some (false, s)

/-- Parse an optional JSON exponent part; `true` iff an exponent was present. -/
def parseExp : List Char → Option (Bool × List Char)
  | c :: r =>
    if c == 'e' || c == 'E' then
      let r1 := match r with
        | s :: r2 => if s == '+' || s == '-' then r2 else s :: r2
        | [] => []
      match takeDigits r1 with
      | ([], _) => none
      | (_, r2) => some (true, r2)
    else some (false, c :: r)
  | [] => some (false, [])

/-- Parse a JSON number (grammar: `-? int frac? exp?`, no leading zeros). -/
def parseNum (s : List Char) : Option (Json × List Char) :=
  let p := match s with
    | '-' :: r => (true, r)
    | _ => (false, s)
  match takeDigits p.2 with
  | ([], _) => none
  | (ds, r1) =>
    if 1 < ds.length ∧ ds.headD 'x' = '0' then none
    else
      match parseFrac r1 with
      | none => none
      | some (f, r2) =>
        match parseExp r2 with
        | none => none
        | some (e, r3) =>
          let v : Int := if p.1 then -(digitsToNat ds : Int) else (digitsToNat ds : Int)
          some (.num v (!f && !e), r3)

/-- Translation of a single-character JSON escape. -/
def escChar : Char → Option Char
  | '"' => some '"'
  | '\\' => some '\\'
  | '/' => some '/'
  | 'b' => some (Char.ofNat 8)
  | 'f' => some (Char.ofNat 12)
  | 'n' => some '\n'
  | 'r' => some '\r'
  | 't' => some '\t'
  | _ => none

/-- Value of one hexadecimal digit character. -/
def hexVal (c : Char) : Option Nat :=
  if c.isDigit then some (c.toNat - 48)
  else if 'a' ≤ c ∧ c ≤ 'f' then some (c.toNat - 87)
  else if 'A' ≤ c ∧ c ≤ 'F' then some (c.toNat - 55)
  else none

/-- Parse the body of a JSON string after the opening quote, fuel-bounded;
returns the decoded characters and the input following the closing quote. -/
def parseStrAux : Nat → List Char → Option (List Char × List Char)
  | 0, _ => none
  | _, [] => none
  | _ + 1, '"' :: rest => some ([], rest)
  | fuel + 1, '\\' :: rest =>
    match rest with
    | [] => none
    | e :: r =>
      if e == 'u' then
        match r with
        | h1 :: h2 :: h3 :: h4 :: r2 =>
          match hexVal h1, hexVal h2, hexVal h3, hexVal h4 with
          | some a, some b, some c, some d =>
            match parseStrAux fuel r2 with
            | some (cs, r3) => some (Char.ofNat (((a * 16 + b) * 16 + c) * 16 + d) :: cs, r3)
            | none => none
          | _, _, _, _ => none
        | _ => none
      else
        match escChar e with
        | some c =>
          match parseStrAux fuel r with
          | some (cs, r2) => some (c :: cs, r2)
          | none => none
        | none => none
  | fuel + 1, c :: rest =>
    match parseStrAux fuel rest with
    | some (cs, r) => some (c :: cs, r)
    | none => none

mutual

/-- Parse one JSON value, fuel-bounded; whitespace before the value is the
caller's business (`skipWs` has already run). -/
def parseValue : Nat → List Char → Option (Json × List Char)
  | 0, _ => none
  | _ + 1, 'n' :: 'u' :: 'l' :: 'l' :: r => some (.null, r)
  | _ + 1, 't' :: 'r' :: 'u' :: 'e' :: r => some (.bool true, r)
  | _ + 1, 'f' :: 'a' :: 'l' :: 's' :: 'e' :: r => some (.bool false, r)
  | fuel + 1, '"' :: r =>
    match parseStrAux fuel r with
    | some (cs, r2) => some (.str cs, r2)
    | none => none
  | fuel + 1, '[' :: r =>
    (match skipWs r with
     | ']' :: r2 => some (.arr [], r2)
     | r2 => match parseElems fuel r2 with
       | some (xs, r3) => some (.arr xs, r3)
       | none => none)
  | fuel + 1, '{' :: r =>
    (match skipWs r with
     | '}' :: r2 => some (.obj [], r2)
     | r2 => match parseFields fuel r2 with
       | some (fs, r3) => some (.obj fs, r3)
       | none => none)
  | _ + 1, s => parseNum s

/-- Parse the comma-separated elements of a non-empty JSON array, up to and
including the closing bracket. -/
def parseElems : Nat → List Char → Option (List Json × List Char)
  | 0, _ => none
  | fuel + 1, s =>
    match parseValue fuel s with
    | none => none
    | some (v, r) =>
      match skipWs r with
      | ',' :: r2 =>
        (match parseElems fuel (skipWs r2) with
         | some (xs, r3) => some (v :: xs, r3)
         | none => none)
      | ']' :: r2 => some ([v], r2)
      | _ => none

/-- Parse the comma-separated members of a non-empty JSON object, up to and
including the closing brace. -/
def parseFields : Nat → List Char → Option (List (List Char × Json) × List Char)
  | 0, _ => none
  | fuel + 1, s =>
    match s with
    | '"' :: r =>
      (match parseStrAux fuel r with
       | none => none
       | some (key, r1) =>
         match skipWs r1 with
         | ':' :: r2 =>
           (match parseValue fuel (skipWs r2) with
            | none => none
            | some (v, r3) =>
              match skipWs r3 with
              | ',' :: r4 =>
                (match parseFields fuel (skipWs r4) with
                 | some (fs, r5) => some ((key, v) :: fs, r5)
                 | none => none)
              | '}' :: r4 => some ([(key, v)], r4)
              | _ => none)
         | _ => none)
    | _ => none

end

/-- Parse a whole JSON document the way serde_json's `from_str` does: one
value, surrounded by optional whitespace, nothing else trailing. -/
def parseJson (body : List Char) : Option Json :=
  match parseValue (body.length + 8) (skipWs body) with
  | some (j, rest) => if skipWs rest = [] then some j else none
  | none => none

/-- First value bound to `key` in an object's field list (serde reads the
fields in order; a duplicate field is a serde error, a pathological case the
model maps to first-occurrence instead). -/
def lookupField : List (List Char × Json) → List Char → Option Json
  | [], _ => none
  | (k, v) :: rest, key => if k = key then some v else lookupField rest key

/-- Deserialization of one JSON value into `u8`: a plain integer in
`[0, 255]`; a float, a string, a bool … is a type error. -/
def decodeU8 : Json → Option Nat
  | .num n true => if 0 ≤ n ∧ n ≤ 255 then some n.toNat else none
  | _ => none

/-- Deserialization of a list of JSON values into `Vec<u8>`. -/
def decodeU8List : List Json → Option (List Nat)
  | [] => some []
  | j :: rest =>
    match decodeU8 j, decodeU8List rest with
    | some v, some vs => some (v :: vs)
    | _, _ => none

/-- Deserialization of one JSON value into `String`. -/
def decodeStrVal : Json → Option (List Char)
  | .str s => some s
  | _ => none

/-- Deserialization of a list of JSON values into `Vec<String>`. -/
def decodeStrList : List Json → Option (List (List Char))
  | [] => some []
  | j :: rest =>
    match decodeStrVal j, decodeStrList rest with
    | some v, some vs => some (v :: vs)
    | _, _ => none

/-- serde deserialization of `ApiResponse { data: Vec<u8> }`: the document
must be an object with a `data` field holding an array of `u8` values;
unknown fields are ignored. -/
def decodeApiResponse (j : Json) : Option (List Nat) :=
  match j with
  | .obj fields =>
    (match lookupField fields (("data").data) with
     | some (.arr xs) => decodeU8List xs
     | _ => none)
  | _ => none

/-- serde deserialization of `ApiResponseHex { data: Vec<String> }`. -/
def decodeApiResponseHex (j : Json) : Option (List (List Char)) :=
  match j with
  | .obj fields =>
    (match lookupField fields (("data").data) with
     | some (.arr xs) => decodeStrList xs
     | _ => none)
  | _ => none

/-- Model of `serde_json::from_str::<ApiResponse>(&body)`. -/
def fromStrApiResponse (body : List Char) : Option (List Nat) :=
  (parseJson body).bind decodeApiResponse

/-- Model of `serde_json::from_str::<ApiResponseHex>(&body)`. -/
def fromStrApiResponseHex (body : List Char) : Option (List (List Char)) :=
  (parseJson body).bind decodeApiResponseHex

/-- The `DataType` enum of the CLI (clap `ValueEnum`). -/
inductive DataType where
  | Uint8 : DataType
  | Uint16 : DataType
  | Hex16 : DataType
deriving DecidableEq

/-- The `DataType::to_lowercase` method: the query-string spelling of the
requested data type. -/
def DataType.to_lowercase : DataType → List Char
  | .Uint8 => ("uint8").data
  | .Uint16 => ("uint16").data
  | .Hex16 => ("hex16").data

/-- The fixed base endpoint `API_URL`. -/
def API_URL : List Char := ("https://qrng.anu.edu.au/API/jsonI.php").data

/-- The URL the lottery path requests (line 84): the base endpoint with the
fixed query string `?length=10&type=uint8`; it takes no parameters. -/
def lottoUrl : List Char := API_URL ++ ("?length=10&type=uint8").data

/-- Decimal rendering of a natural number, fuel-bounded so that it reduces;
`natChars` below supplies enough fuel for any input. -/
def natCharsAux : Nat → Nat → List Char
  | 0, _ => []
  | fuel + 1, n =>
    if n < 10 then [Char.ofNat (48 + n)]
    else natCharsAux fuel (n / 10) ++ [Char.ofNat (48 + n % 10)]

/-- Decimal rendering of a natural number, as Rust's `Display` for integers
prints it into `format!`. -/
def natChars (n : Nat) : List Char := natCharsAux (n + 1) n

/-- URL construction of `fetch_random_array` (lines 157-160): base endpoint,
`length` and `type` query parameters, then `&size=<s>` appended exactly when
a block size is present. -/
def buildRandomArrayUrl (len : Nat) (dt : DataType) (blockSize : Option Nat) : List Char :=
  match blockSize with
  | some s => API_URL ++ ("?length=").data ++ natChars len
      ++ ("&type=").data ++ dt.to_lowercase ++ ("&size=").data ++ natChars s
  | none => API_URL ++ ("?length=").data ++ natChars len
      ++ ("&type=").data ++ dt.to_lowercase

/-- Parameter resolution and URL construction of `fetch_random_array`
(lines 147-160).  A `none` CLI value is replaced by the corresponding
interactive prompt's result, supplied here as an oracle (`promptedType`,
`promptedLength`, `promptedBlockSize`); the block size is resolved, and the
block-size prompt consulted, only when the resolved data type is `Hex16`. -/
def fetch_random_array_url (data_type : Option DataType) (len : Option Nat)
    (block_size : Option Nat) (promptedType : DataType) (promptedLength : Nat)
    (promptedBlockSize : Nat) : List Char :=
  buildRandomArrayUrl (len.getD promptedLength) (data_type.getD promptedType)
    (if data_type.getD promptedType = DataType.Hex16
     then some (block_size.getD promptedBlockSize) else none)

/-- Rust `u16::from_str` on an already-trimmed string: an optional leading
`+`, then one or more decimal digits, value at most 65535; anything else
(empty string, a minus sign, a non-digit, overflow) is an error. -/
def parse_u16 (s : List Char) : Option Nat :=
  let ds := match s with
    | '+' :: r => r
    | _ => s
  if ds = [] then none
  else if ds.all Char.isDigit then
    let v := digitsToNat ds
    if v < 65536 then some v else none
  else none

/-- Rust `str::trim`: strip whitespace from both ends (the model covers the
ASCII whitespace that terminal input can contain). -/
def trimChars (s : List Char) : List Char :=
  ((s.dropWhile fun c => isJsonWs c).reverse.dropWhile fun c => isJsonWs c).reverse

/-- The `prompt_for_length` loop (lines 214-226) over the sequence of input
lines: each line is trimmed and parsed as `u16`; a line that fails to parse
or parses outside `[1, 1024]` is rejected and the loop moves to the next
line; `none` models a loop that never returns (input exhausted). -/
def prompt_for_length : List (List Char) → Option Nat
  | [] => none
  | line :: rest =>
    match parse_u16 (trimChars line) with
    | some v => if 1 ≤ v ∧ v ≤ 1024 then some v else prompt_for_length rest
    | none => prompt_for_length rest

/-- The `prompt_for_block_size` loop (lines 228-240), identical to
`prompt_for_length` except for its messages. -/
def prompt_for_block_size : List (List Char) → Option Nat
  | [] => none
  | line :: rest =>
    match parse_u16 (trimChars line) with
    | some v => if 1 ≤ v ∧ v ≤ 1024 then some v else prompt_for_block_size rest
    | none => prompt_for_block_size rest

/-- reqwest `StatusCode::is_success`: the 2xx range. -/
def isSuccessStatus (s : Nat) : Bool := decide (200 ≤ s) && decide (s < 300)

/-- reqwest `StatusCode::is_server_error`: the 5xx range. -/
def isServerErrorStatus (s : Nat) : Bool := decide (500 ≤ s) && decide (s < 600)

/-- Rust `str::contains` with a string pattern: `pat` occurs as a contiguous
substring of the text. -/
def containsSub (pat : List Char) : List Char → Bool
  | [] => pat.isEmpty
  | c :: rest => pat.isPrefixOf (c :: rest) || containsSub pat rest

/-- The literal substring `"success":false` that both error handlers look
for in the raw body (lines 125 and 181). -/
def successFalseLit : List Char := ("\"success\":false").data

/-- The remap step of the lottery pipeline (line 107): every fetched byte
`n` becomes `(n % 49) + 1`.  On `u8` the addition cannot overflow, so plain
natural arithmetic is faithful. -/
def remapLottoNumbers (data : List Nat) : List Nat :=
  data.map fun n => (n % 49) + 1

/-- The dedup/take/sort steps of the lottery pipeline (lines 110-119) given
the realised `HashSet` iteration sequence: take the first 6 values in
iteration order and sort them ascending.  `Vec::sort` is a stable
comparison sort; every stable sort of the same list under the same total
order yields the same output, so insertion sort models it exactly. -/
def lottoPipeline (iter : List Nat) : List Nat :=
  (iter.take 6).insertionSort (· ≤ ·)

/-- The property that `iter` is a possible `HashSet` iteration sequence for
the collected values `elems`: duplicate-free, and containing exactly the
elements of `elems`.  The iteration ORDER is unspecified in Rust, which is
why it is quantified rather than fixed. -/
def IsHashSetIter (iter elems : List Nat) : Prop :=
  iter.Nodup ∧ (∀ x ∈ iter, x ∈ elems) ∧ (∀ x ∈ elems, x ∈ iter)

instance (iter elems : List Nat) : Decidable (IsHashSetIter iter elems) := by
  unfold IsHashSetIter
  infer_instance

/-- What `fetch_lotto_numbers` prints after receiving the response
(lines 88-132). -/
inductive LottoOutcome where
  | serverErrorMsg : LottoOutcome
  | statusErrorMsg (status : Nat) : LottoOutcome
  | printedNumbers (ns : List Nat) : LottoOutcome
  | rateLimitMsg : LottoOutcome
  | parseErrorMsg : LottoOutcome
deriving DecidableEq

/-- Response handling of `fetch_lotto_numbers` (lines 88-134) as a function
of the received status and raw body.  `hashIter` is the oracle giving the
`HashSet` iteration sequence obtained for a given collected list.  Every
branch returns `Except.ok`: an upstream error or a decode failure only
prints a message. -/
def fetchLottoResult (hashIter : List Nat → List Nat) (status : Nat)
    (body : List Char) : Except (List Char) LottoOutcome :=
  if !isSuccessStatus status then
    if isServerErrorStatus status then .ok .serverErrorMsg
    else .ok (.statusErrorMsg status)
  else
    match fromStrApiResponse body with
    | some data => .ok (.printedNumbers (lottoPipeline (hashIter (remapLottoNumbers data))))
    | none =>
      if containsSub successFalseLit body then .ok .rateLimitMsg
      else .ok .parseErrorMsg

/-- What `fetch_random_array` prints on a success status (lines 174-188). -/
inductive ArrayOutcome where
  | printedArray (ss : List (List Char)) : ArrayOutcome
  | rateLimitMsg : ArrayOutcome
  | parseErrorMsg : ArrayOutcome
deriving DecidableEq

/-- The error text `fetch_random_array` returns on a non-success status
(line 167).  reqwest's `Display` for a status appends the canonical reason
phrase after the number; the model keeps the numeric part, which is what
the claims are about. -/
def statusErrorText (status : Nat) : List Char :=
  ("Failed to fetch data. Status: ").data ++ natChars status

/-- Response handling of `fetch_random_array` (lines 166-190): a non-success
status is returned as an error (fatal for the process); a decode failure on
a success status only prints a message.  Note the body is decoded as
`ApiResponseHex` (`data: Vec<String>`) for every data type. -/
def fetchRandomArrayResult (status : Nat) (body : List Char) :
    Except (List Char) ArrayOutcome :=
  if !isSuccessStatus status then .error (statusErrorText status)
  else
    match fromStrApiResponseHex body with
    | some ss => .ok (.printedArray ss)
    | none =>
      if containsSub successFalseLit body then .ok .rateLimitMsg
      else .ok .parseErrorMsg

/-! Helper lemmas. -/

/-- A digit character built from a value below 10 is a decimal digit. -/
lemma digitChar_isDigit {d : Nat} (h : d < 10) : (Char.ofNat (48 + d)).isDigit = true := by
  interval_cases d <;> decide

/-- Every character produced by `natCharsAux` is a decimal digit. -/
lemma natCharsAux_digits (fuel : Nat) : ∀ (n : Nat), ∀ c ∈ natCharsAux fuel n, c.isDigit = true := by
  induction fuel with
  | zero => intro n c hc; simp [natCharsAux] at hc
  | succ fuel ih =>
    intro n c hc
    simp only [natCharsAux] at hc
    by_cases h : n < 10
    · rw [if_pos h] at hc
      rcases List.mem_singleton.mp hc with rfl
      exact digitChar_isDigit h
    · rw [if_neg h] at hc
      rcases List.mem_append.mp hc with h1 | h2
      · exact ih (n / 10) c h1
      · rcases List.mem_singleton.mp h2 with rfl
        exact digitChar_isDigit (Nat.mod_lt _ (by omega))

/-- Every character of a rendered number is a decimal digit. -/
lemma natChars_digits (n : Nat) : ∀ c ∈ natChars n, c.isDigit = true :=
  natCharsAux_digits (n + 1) n

/-- The sorting step is a permutation of its input. -/
lemma lottoPipeline_perm (iter : List Nat) : (lottoPipeline iter).Perm (iter.take 6) :=
  List.perm_insertionSort _ _

/-- The lottery output is sorted non-decreasing. -/
lemma lottoPipeline_sorted (iter : List Nat) : List.Sorted (· ≤ ·) (lottoPipeline iter) :=
  List.sorted_insertionSort _ _

/-- The lottery output has no duplicates when the iteration sequence has none. -/
lemma lottoPipeline_nodup {iter : List Nat} (h : iter.Nodup) : (lottoPipeline iter).Nodup :=
  ((lottoPipeline_perm iter).symm.nodup (List.Nodup.sublist (List.take_sublist 6 iter) h))

/-- The length of the lottery output. -/
lemma lottoPipeline_length (iter : List Nat) : (lottoPipeline iter).length = min 6 iter.length := by
  unfold lottoPipeline
  rw [List.length_insertionSort, List.length_take]

/-- Every lottery output value comes from the iteration sequence. -/
lemma lottoPipeline_mem {iter : List Nat} {x : Nat} (h : x ∈ lottoPipeline iter) : x ∈ iter :=
  List.mem_of_mem_take ((lottoPipeline_perm iter).mem_iff.mp h)

/-- Every remapped value lies in `[1, 49]`. -/
lemma remap_bounds {data : List Nat} {x : Nat} (h : x ∈ remapLottoNumbers data) :
    1 ≤ x ∧ x ≤ 49 := by
  unfold remapLottoNumbers at h
  rcases List.mem_map.mp h with ⟨n, _, rfl⟩
  have : n % 49 < 49 := Nat.mod_lt _ (by omega)
  omega

/-- An iteration sequence of the set collected from `elems` is as long as the
list of distinct values of `elems`. -/
lemma hashIter_length {iter elems : List Nat} (h : IsHashSetIter iter elems) :
    iter.length = elems.dedup.length := by
  obtain ⟨hnd, hsub1, hsub2⟩ := h
  have hfs : iter.toFinset = elems.toFinset := by
    ext x
    simp only [List.mem_toFinset]
    exact ⟨fun hx => hsub1 x hx, fun hx => hsub2 x hx⟩
  calc iter.length = iter.toFinset.card := (List.toFinset_card_of_nodup hnd).symm
    _ = elems.toFinset.card := by rw [hfs]
    _ = elems.dedup.length := List.card_toFinset elems

/-- The built URL carries the `length` query parameter. -/
lemma url_has_length_param (l : Nat) (dt : DataType) (bs : Option Nat) :
    ("length=").data ++ natChars l <:+: buildRandomArrayUrl l dt bs := by
  cases bs with
  | none =>
    exact ⟨API_URL ++ ("?").data, ("&type=").data ++ dt.to_lowercase,
      by simp only [buildRandomArrayUrl, List.append_assoc]; rfl⟩
  | some s =>
    exact ⟨API_URL ++ ("?").data,
      ("&type=").data ++ dt.to_lowercase ++ ("&size=").data ++ natChars s,
      by simp only [buildRandomArrayUrl, List.append_assoc]; rfl⟩

/-- The built URL carries the `type` query parameter. -/
lemma url_has_type_param (l : Nat) (dt : DataType) (bs : Option Nat) :
    ("type=").data ++ dt.to_lowercase <:+: buildRandomArrayUrl l dt bs := by
  cases bs with
  | none =>
    exact ⟨API_URL ++ ("?length=").data ++ natChars l ++ ("&").data, [],
      by simp only [buildRandomArrayUrl, List.append_assoc, List.append_nil]; rfl⟩
  | some s =>
    exact ⟨API_URL ++ ("?length=").data ++ natChars l ++ ("&").data,
      ("&size=").data ++ natChars s,
      by simp only [buildRandomArrayUrl, List.append_assoc]; rfl⟩

/-- With a block size present, the built URL carries the `size` query
parameter. -/
lemma url_has_size_param (l : Nat) (dt : DataType) (s : Nat) :
    ("size=").data ++ natChars s <:+: buildRandomArrayUrl l dt (some s) :=
  ⟨API_URL ++ ("?length=").data ++ natChars l ++ ("&type=").data
      ++ dt.to_lowercase ++ ("&").data, [],
    by simp only [buildRandomArrayUrl, List.append_assoc, List.append_nil]; rfl⟩

/-- Without a block size, the built URL has no `size` parameter at all: the
character `z` never occurs in it. -/
lemma url_no_size_param (l : Nat) (dt : DataType) :
    ¬ (("size=").data <:+: buildRandomArrayUrl l dt none) := by
  intro hinf
  have hz : 'z' ∈ buildRandomArrayUrl l dt none :=
    hinf.subset (show 'z' ∈ ("size=").data by decide)
  simp only [buildRandomArrayUrl, List.mem_append] at hz
  rcases hz with ((hz | hz) | hz) | hz
  · rcases hz with hz | hz
    · exact absurd hz (by decide)
    · exact absurd hz (by decide)
  · exact absurd (natChars_digits l 'z' hz) (by decide)
  · exact absurd hz (by decide)
  · cases dt
    · exact absurd hz (by decide)
    · exact absurd hz (by decide)
    · exact absurd hz (by decide)

/-! Claim theorems. -/

/-- Claim C8: the lottery path always requests the fixed URL
`API_URL?length=10&type=uint8` — a constant taking no parameters — so the
URL carries `length=10` and `type=uint8` against the fixed base endpoint. -/
theorem lotto_url_fixed :
    lottoUrl = ("https://qrng.anu.edu.au/API/jsonI.php?length=10&type=uint8").data
    ∧ (("length=10").data <:+: lottoUrl)
    ∧ (("type=uint8").data <:+: lottoUrl)
    ∧ (API_URL <+: lottoUrl) := by
  refine ⟨rfl, by decide, by decide, by decide⟩

/-- Claim C2: at a success status, a body of the shape the spec expects for
`Uint8`/`Uint16` — an array of small integers under `data` — is rejected by
the generic array path, because `fetch_random_array` decodes every data type
as `ApiResponseHex` (`data: Vec<String>`); the very same body decodes fine
as `ApiResponse` (`data: Vec<u8>`).  An array of hex strings is accepted, as
the claim says, only for that shape. -/
theorem generic_array_numeric_body_rejected :
    fromStrApiResponse (("\x7b\"data\":[1,2,3]\x7d").data) = some [1, 2, 3]
    ∧ fetchRandomArrayResult 200 (("\x7b\"data\":[1,2,3]\x7d").data)
        = .ok ArrayOutcome.parseErrorMsg
    ∧ fetchRandomArrayResult 200 (("\x7b\"data\":[\"1a\",\"2b\"]\x7d").data)
        = .ok (.printedArray [("1a").data, ("2b").data]) := by
  exact ⟨rfl, rfl, rfl⟩

/-- Claim C6 counterexample: the reversed sequence is a legitimate `HashSet`
iteration order for the remapped values of `[0,…,9]`, and under it the
pipeline prints `[5,6,7,8,9,10]`, not `[1,2,3,4,5,6]`. -/
theorem lotto_take_order_counterexample :
    IsHashSetIter [10, 9, 8, 7, 6, 5, 4, 3, 2, 1]
      (remapLottoNumbers [0, 1, 2, 3, 4, 5, 6, 7, 8, 9])
    ∧ fetchLottoResult (fun _ => [10, 9, 8, 7, 6, 5, 4, 3, 2, 1]) 200
        (("\x7b\"data\":[0,1,2,3,4,5,6,7,8,9]\x7d").data)
        = .ok (.printedNumbers [5, 6, 7, 8, 9, 10])
    ∧ ([5, 6, 7, 8, 9, 10] : List Nat) ≠ [1, 2, 3, 4, 5, 6] := by
  exact ⟨by decide, rfl, by decide⟩

/-- Claim C4: for every resolved parameter set, the built URL contains
`length=<length>` and `type=<data_type_str>`, contains `size=<block_size>`
when the data type is `Hex16`, and contains no `size` parameter at all
otherwise, whatever block size was supplied. -/
theorem url_params_iff_hex16 (data_type : Option DataType) (len : Option Nat)
    (block_size : Option Nat) (pt : DataType) (pl pb : Nat) :
    (("length=").data ++ natChars (len.getD pl)
      <:+: fetch_random_array_url data_type len block_size pt pl pb)
    ∧ (("type=").data ++ (data_type.getD pt).to_lowercase
      <:+: fetch_random_array_url data_type len block_size pt pl pb)
    ∧ (data_type.getD pt = DataType.Hex16 →
      ("size=").data ++ natChars (block_size.getD pb)
        <:+: fetch_random_array_url data_type len block_size pt pl pb)
    ∧ (data_type.getD pt ≠ DataType.Hex16 →
      ¬ (("size=").data <:+: fetch_random_array_url data_type len block_size pt pl pb)) := by
  unfold fetch_random_array_url
  refine ⟨?_, ?_, ?_, ?_⟩
  · exact url_has_length_param _ _ _
  · exact url_has_type_param _ _ _
  · intro hdt
    rw [hdt, if_pos rfl]
    exact url_has_size_param _ _ _
  · intro hdt
    rw [if_neg hdt]
    exact url_no_size_param _ _

/-- Witness for C4 at concrete inputs: a `Hex16` request carries its size
parameter, a `Uint8` request never does, even with a block size supplied. -/
theorem url_params_iff_hex16_witness :
    (("size=").data ++ natChars 3
      <:+: fetch_random_array_url (some DataType.Hex16) (some 7) (some 3) DataType.Uint8 1 1)
    ∧ ¬ (("size=").data
      <:+: fetch_random_array_url (some DataType.Uint8) (some 7) (some 3) DataType.Uint8 1 1) := by
  exact ⟨(url_params_iff_hex16 (some DataType.Hex16) (some 7) (some 3) DataType.Uint8 1 1).2.2.1 rfl,
    (url_params_iff_hex16 (some DataType.Uint8) (some 7) (some 3) DataType.Uint8 1 1).2.2.2
      (by decide)⟩

/-- Claim C9: a CLI-supplied length reaches the URL exactly as given — the
prompt is bypassed, no `[1,1024]` bound is checked for any `u16` value,
including `0` and values above `1024` — and the generic array path raises no
validation error: with a success response it always returns `Except.ok`. -/
theorem cli_length_unvalidated (n : Nat) (hn : n < 65536) (data_type : Option DataType)
    (block_size : Option Nat) (pt : DataType) (pl pb : Nat)
    (status : Nat) (body : List Char) (hst : isSuccessStatus status = true) :
    (some n : Option Nat).getD pl = n
    ∧ (("length=").data ++ natChars n
      <:+: fetch_random_array_url data_type (some n) block_size pt pl pb)
    ∧ ∃ out, fetchRandomArrayResult status body = Except.ok out := by
  refine ⟨rfl, ?_, ?_⟩
  · unfold fetch_random_array_url
    exact url_has_length_param _ _ _
  · unfold fetchRandomArrayResult
    rw [hst]
    simp only [Bool.not_true, Bool.false_eq_true, if_false]
    rcases fromStrApiResponseHex body with _ | ss
    · by_cases hc : containsSub successFalseLit body = true
      · rw [if_pos hc]; exact ⟨_, rfl⟩
      · rw [if_neg hc]; exact ⟨_, rfl⟩
    · exact ⟨_, rfl⟩

/-- Witness for C9 at concrete inputs: lengths 2000 and 0 are embedded into
the URL as given. -/
theorem cli_length_unvalidated_witness :
    (("length=").data ++ natChars 2000
      <:+: fetch_random_array_url (some DataType.Uint8) (some 2000) none DataType.Uint8 1 1)
    ∧ (("length=").data ++ natChars 0
      <:+: fetch_random_array_url (some DataType.Uint8) (some 0) none DataType.Uint8 1 1) := by
  exact ⟨(cli_length_unvalidated 2000 (by decide) (some DataType.Uint8) none DataType.Uint8 1 1
      200 [] (by decide)).2.1,
    (cli_length_unvalidated 0 (by decide) (some DataType.Uint8) none DataType.Uint8 1 1
      200 [] (by decide)).2.1⟩

/-- Claim C3: a non-success status is non-fatal for the lottery path — it
returns `Except.ok` with a printed message distinguishing 5xx from the other
non-success codes — but fatal for the generic array path, which returns an
error whose text contains the status code. -/
theorem http_error_asymmetry (hashIter : List Nat → List Nat) (status : Nat)
    (body : List Char) (h : isSuccessStatus status = false) :
    fetchLottoResult hashIter status body
      = .ok (if isServerErrorStatus status then LottoOutcome.serverErrorMsg
             else LottoOutcome.statusErrorMsg status)
    ∧ fetchRandomArrayResult status body = .error (statusErrorText status)
    ∧ (natChars status <:+: statusErrorText status) := by
  refine ⟨?_, ?_, ?_⟩
  · unfold fetchLottoResult
    rw [h]
    by_cases hs : isServerErrorStatus status = true
    · rw [hs]; rfl
    · rw [Bool.not_eq_true] at hs; rw [hs]; rfl
  · unfold fetchRandomArrayResult
    rw [h]
    rfl
  · exact ⟨("Failed to fetch data. Status: ").data, [],
      by simp only [statusErrorText, List.append_nil]⟩

/-- Witness for C3 at status 503 (a server error): the lottery path returns
normally with the server-error message, the generic path returns the fatal
error, whose text contains `503`. -/
theorem http_error_asymmetry_witness :
    fetchLottoResult (fun l => l.dedup) 503 [] = .ok LottoOutcome.serverErrorMsg
    ∧ fetchRandomArrayResult 503 [] = .error (statusErrorText 503)
    ∧ (("503").data <:+: statusErrorText 503) := by
  have h := http_error_asymmetry (fun l => l.dedup) 503 [] (by decide)
  refine ⟨?_, h.2.1, ?_⟩
  · rw [h.1]; rfl
  · have h2 := h.2.2
    rw [show natChars 503 = ("503").data from rfl] at h2
    exact h2

/-- Claim C5: on a success status whose body fails to decode into the
expected struct, both paths return normally (`Except.ok`), printing the
rate-limit message exactly when the raw body contains the literal substring
`"success":false` and the generic parse-failure message otherwise. -/
theorem decode_failure_nonfatal (hashIter : List Nat → List Nat) (status : Nat)
    (body : List Char) (hst : isSuccessStatus status = true) :
    (fromStrApiResponse body = none →
      fetchLottoResult hashIter status body
        = .ok (if containsSub successFalseLit body then LottoOutcome.rateLimitMsg
               else LottoOutcome.parseErrorMsg))
    ∧ (fromStrApiResponseHex body = none →
      fetchRandomArrayResult status body
        = .ok (if containsSub successFalseLit body then ArrayOutcome.rateLimitMsg
               else ArrayOutcome.parseErrorMsg)) := by
  constructor
  · intro hdec
    unfold fetchLottoResult
    rw [hst, hdec]
    by_cases hc : containsSub successFalseLit body = true
    · rw [hc]; rfl
    · rw [Bool.not_eq_true] at hc; rw [hc]; rfl
  · intro hdec
    unfold fetchRandomArrayResult
    rw [hst, hdec]
    by_cases hc : containsSub successFalseLit body = true
    · rw [hc]; rfl
    · rw [Bool.not_eq_true] at hc; rw [hc]; rfl

/-- Witness for C5 at status 200 with body `{"success":false}` — which fails
to decode for both structs — both paths return normally with the rate-limit
message. -/
theorem decode_failure_nonfatal_witness :
    fetchLottoResult (fun l => l.dedup) 200 (("\x7b\"success\":false\x7d").data)
      = .ok LottoOutcome.rateLimitMsg
    ∧ fetchRandomArrayResult 200 (("\x7b\"success\":false\x7d").data)
      = .ok ArrayOutcome.rateLimitMsg := by
  have h := decode_failure_nonfatal (fun l => l.dedup) 200
    (("\x7b\"success\":false\x7d").data) (by decide)
  constructor
  · rw [h.1 rfl]; rfl
  · rw [h.2 rfl]; rfl

/-- Claim C1: for a decoded sequence of 10 input bytes and any `HashSet`
iteration order, the printed lottery output has every value in `[1, 49]`, no
duplicates, is sorted non-decreasing, and its length is
`min 6 (number of distinct remapped values)`. -/
theorem lotto_pipeline_spec (hashIter : List Nat → List Nat) (status : Nat)
    (body : List Char) (data : List Nat)
    (hst : isSuccessStatus status = true)
    (hdec : fromStrApiResponse body = some data)
    (hlen : data.length = 10)
    (hit : IsHashSetIter (hashIter (remapLottoNumbers data)) (remapLottoNumbers data)) :
    fetchLottoResult hashIter status body
      = .ok (.printedNumbers (lottoPipeline (hashIter (remapLottoNumbers data))))
    ∧ (∀ v ∈ lottoPipeline (hashIter (remapLottoNumbers data)), 1 ≤ v ∧ v ≤ 49)
    ∧ (lottoPipeline (hashIter (remapLottoNumbers data))).Nodup
    ∧ List.Sorted (· ≤ ·) (lottoPipeline (hashIter (remapLottoNumbers data)))
    ∧ (lottoPipeline (hashIter (remapLottoNumbers data))).length
        = min 6 (remapLottoNumbers data).dedup.length := by
  refine ⟨?_, ?_, ?_, ?_, ?_⟩
  · unfold fetchLottoResult
    rw [hst, hdec]
    rfl
  · intro v hv
    exact remap_bounds (hit.2.1 v (lottoPipeline_mem hv))
  · exact lottoPipeline_nodup hit.1
  · exact lottoPipeline_sorted _
  · rw [lottoPipeline_length, hashIter_length hit]

/-- Witness for C1 with the bytes `0..9` and first-seen iteration order. -/
theorem lotto_pipeline_spec_witness :
    fetchLottoResult (fun l => l.dedup) 200
        (("\x7b\"data\":[0,1,2,3,4,5,6,7,8,9]\x7d").data)
      = .ok (.printedNumbers (lottoPipeline
          (List.dedup (remapLottoNumbers [0, 1, 2, 3, 4, 5, 6, 7, 8, 9]))))
    ∧ (lottoPipeline (List.dedup (remapLottoNumbers [0, 1, 2, 3, 4, 5, 6, 7, 8, 9]))).length
        = min 6 (remapLottoNumbers [0, 1, 2, 3, 4, 5, 6, 7, 8, 9]).dedup.length := by
  have h := lotto_pipeline_spec (fun l => l.dedup) 200
    (("\x7b\"data\":[0,1,2,3,4,5,6,7,8,9]\x7d").data) [0, 1, 2, 3, 4, 5, 6, 7, 8, 9]
    (by decide) rfl rfl (by decide)
  exact ⟨h.1, h.2.2.2.2⟩

/-- Claim C10: `fetch_lotto_numbers` never checks that the decoded array has
10 elements: any successfully decoded array, of any length, goes through the
remap/dedup/take/sort pipeline and is printed without error; the printed
result never exceeds 6 values, and an empty array yields an empty result. -/
theorem lotto_no_length_check (hashIter : List Nat → List Nat) (status : Nat)
    (body : List Char) (data : List Nat)
    (hst : isSuccessStatus status = true)
    (hdec : fromStrApiResponse body = some data)
    (hit : IsHashSetIter (hashIter (remapLottoNumbers data)) (remapLottoNumbers data)) :
    fetchLottoResult hashIter status body
      = .ok (.printedNumbers (lottoPipeline (hashIter (remapLottoNumbers data))))
    ∧ (lottoPipeline (hashIter (remapLottoNumbers data))).length ≤ 6
    ∧ (data = [] → lottoPipeline (hashIter (remapLottoNumbers data)) = []) := by
  refine ⟨?_, ?_, ?_⟩
  · unfold fetchLottoResult
    rw [hst, hdec]
    rfl
  · rw [lottoPipeline_length]
    omega
  · intro hdata
    subst hdata
    have hnil : hashIter (remapLottoNumbers []) = [] := by
      rcases h : hashIter (remapLottoNumbers []) with _ | ⟨x, rest⟩
      · rfl
      · have hx : x ∈ hashIter (remapLottoNumbers []) := by rw [h]; exact List.mem_cons_self x rest
        have := hit.2.1 x hx
        simp [remapLottoNumbers] at this
    rw [hnil]
    rfl

/-- Witness for C10 at an empty decoded array and at a 12-element decoded
array: the empty body prints an empty result, the long one at most 6. -/
theorem lotto_no_length_check_witness :
    fetchLottoResult (fun l => l.dedup) 200 (("\x7b\"data\":[]\x7d").data)
      = .ok (.printedNumbers [])
    ∧ (lottoPipeline (List.dedup (remapLottoNumbers [1, 1, 1, 1, 1, 1, 1, 1, 1, 1, 1, 1]))).length ≤ 6 := by
  have h0 := lotto_no_length_check (fun l => l.dedup) 200 (("\x7b\"data\":[]\x7d").data) []
    (by decide) rfl (by decide)
  have h12 := lotto_no_length_check (fun l => l.dedup) 200
    (("\x7b\"data\":[1,1,1,1,1,1,1,1,1,1,1,1]\x7d").data) [1, 1, 1, 1, 1, 1, 1, 1, 1, 1, 1, 1]
    (by decide) rfl (by decide)
  constructor
  · rw [h0.1]
    rw [h0.2.2 rfl]
  · exact h12.2.1

/-- Claim C6 (amended): remapping `[0,…,9]` yields `[1,…,10]`, already
unique; for every `HashSet` iteration order the dedup/take/sort steps print
a sorted, duplicate-free selection of 6 values from `[1, 10]`; the exact
sequence `[1,2,3,4,5,6]` is obtained under the first-seen iteration order,
but not under every order, because the set's iteration order is unspecified. -/
theorem lotto_remap_0_to_9 (iter : List Nat)
    (hit : IsHashSetIter iter (remapLottoNumbers [0, 1, 2, 3, 4, 5, 6, 7, 8, 9])) :
    remapLottoNumbers [0, 1, 2, 3, 4, 5, 6, 7, 8, 9] = [1, 2, 3, 4, 5, 6, 7, 8, 9, 10]
    ∧ (lottoPipeline iter).length = 6
    ∧ (lottoPipeline iter).Nodup
    ∧ List.Sorted (· ≤ ·) (lottoPipeline iter)
    ∧ (∀ v ∈ lottoPipeline iter, 1 ≤ v ∧ v ≤ 10)
    ∧ lottoPipeline ((remapLottoNumbers [0, 1, 2, 3, 4, 5, 6, 7, 8, 9]).dedup)
        = [1, 2, 3, 4, 5, 6] := by
  refine ⟨by decide, ?_, lottoPipeline_nodup hit.1, lottoPipeline_sorted _, ?_, by decide⟩
  · rw [lottoPipeline_length, hashIter_length hit]
    decide
  · intro v hv
    have hv2 := hit.2.1 v (lottoPipeline_mem hv)
    rw [show remapLottoNumbers [0, 1, 2, 3, 4, 5, 6, 7, 8, 9] = [1, 2, 3, 4, 5, 6, 7, 8, 9, 10]
      from by decide] at hv2
    fin_cases hv2 <;> omega

/-- Witness for C6 (amended) under the first-seen iteration order. -/
theorem lotto_remap_0_to_9_witness :
    (lottoPipeline ((remapLottoNumbers [0, 1, 2, 3, 4, 5, 6, 7, 8, 9]).dedup)).length = 6
    ∧ lottoPipeline ((remapLottoNumbers [0, 1, 2, 3, 4, 5, 6, 7, 8, 9]).dedup)
        = [1, 2, 3, 4, 5, 6] := by
  have h := lotto_remap_0_to_9 ((remapLottoNumbers [0, 1, 2, 3, 4, 5, 6, 7, 8, 9]).dedup)
    (by decide)
  exact ⟨h.2.1, h.2.2.2.2.2⟩


/-- A prompt input line the loops reject: it does not parse as `u16` after
trimming, or its value lies outside `[1, 1024]`. -/
def rejectedPromptLine (line : List Char) : Bool :=
  match parse_u16 (trimChars line) with
  | some v => decide (v < 1) || decide (1024 < v)
  | none => true

/-- Claim C7: a line that is not a `u16` or is outside `[1, 1024]` makes
either prompt loop re-prompt (the loop's value is that of the remaining
lines), and whenever a loop returns a value, it lies in `[1, 1024]`. -/
theorem prompt_loop_bounds (line : List Char) (rest : List (List Char))
    (lines : List (List Char)) (v w : Nat) :
    (rejectedPromptLine line = true →
      prompt_for_length (line :: rest) = prompt_for_length rest
      ∧ prompt_for_block_size (line :: rest) = prompt_for_block_size rest)
    ∧ (prompt_for_length lines = some v → 1 ≤ v ∧ v ≤ 1024)
    ∧ (prompt_for_block_size lines = some w → 1 ≤ w ∧ w ≤ 1024) := by
  refine ⟨?_, ?_, ?_⟩
  · intro hrej
    unfold rejectedPromptLine at hrej
    rcases hp : parse_u16 (trimChars line) with _ | u
    · constructor
      · show (match parse_u16 (trimChars line) with
          | some u => if 1 ≤ u ∧ u ≤ 1024 then some u else prompt_for_length rest
          | none => prompt_for_length rest) = prompt_for_length rest
        rw [hp]
      · show (match parse_u16 (trimChars line) with
          | some u => if 1 ≤ u ∧ u ≤ 1024 then some u else prompt_for_block_size rest
          | none => prompt_for_block_size rest) = prompt_for_block_size rest
        rw [hp]
    · rw [hp] at hrej
      have h3 : (decide (u < 1) || decide (1024 < u)) = true := hrej
      have hnot : ¬ (1 ≤ u ∧ u ≤ 1024) := by
        intro hb
        rcases (by simpa using h3 : u < 1 ∨ 1024 < u) with h4 | h4 <;> omega
      constructor
      · show (match parse_u16 (trimChars line) with
          | some u => if 1 ≤ u ∧ u ≤ 1024 then some u else prompt_for_length rest
          | none => prompt_for_length rest) = prompt_for_length rest
        rw [hp]
        show (if 1 ≤ u ∧ u ≤ 1024 then some u else prompt_for_length rest)
          = prompt_for_length rest
        rw [if_neg hnot]
      · show (match parse_u16 (trimChars line) with
          | some u => if 1 ≤ u ∧ u ≤ 1024 then some u else prompt_for_block_size rest
          | none => prompt_for_block_size rest) = prompt_for_block_size rest
        rw [hp]
        show (if 1 ≤ u ∧ u ≤ 1024 then some u else prompt_for_block_size rest)
          = prompt_for_block_size rest
        rw [if_neg hnot]
  · intro h
    induction lines with
    | nil => exact absurd h (by simp [prompt_for_length])
    | cons line0 rest0 ih =>
      have h2 : (match parse_u16 (trimChars line0) with
        | some u => if 1 ≤ u ∧ u ≤ 1024 then some u else prompt_for_length rest0
        | none => prompt_for_length rest0) = some v := h
      rcases hp : parse_u16 (trimChars line0) with _ | u
      · rw [hp] at h2
        exact ih h2
      · rw [hp] at h2
        have h3 : (if 1 ≤ u ∧ u ≤ 1024 then some u else prompt_for_length rest0)
            = some v := h2
        by_cases hb : 1 ≤ u ∧ u ≤ 1024
        · rw [if_pos hb] at h3
          cases h3
          exact hb
        · rw [if_neg hb] at h3
          exact ih h3
  · intro h
    induction lines with
    | nil => exact absurd h (by simp [prompt_for_block_size])
    | cons line0 rest0 ih =>
      have h2 : (match parse_u16 (trimChars line0) with
        | some u => if 1 ≤ u ∧ u ≤ 1024 then some u else prompt_for_block_size rest0
        | none => prompt_for_block_size rest0) = some w := h
      rcases hp : parse_u16 (trimChars line0) with _ | u
      · rw [hp] at h2
        exact ih h2
      · rw [hp] at h2
        have h3 : (if 1 ≤ u ∧ u ≤ 1024 then some u else prompt_for_block_size rest0)
            = some w := h2
        by_cases hb : 1 ≤ u ∧ u ≤ 1024
        · rw [if_pos hb] at h3
          cases h3
          exact hb
        · rw [if_neg hb] at h3
          exact ih h3

/-- Witness for C7: the out-of-range line `2000` and the non-numeric line
`abc` are both skipped, and a returned value, here 50, is within bounds. -/
theorem prompt_loop_bounds_witness :
    prompt_for_length [(" 2000 ").data, ("50").data] = prompt_for_length [("50").data]
    ∧ prompt_for_block_size [("abc").data, ("50").data]
        = prompt_for_block_size [("50").data]
    ∧ (1 ≤ 50 ∧ 50 ≤ 1024) := by
  refine ⟨?_, ?_, ?_⟩
  · exact ((prompt_loop_bounds (" 2000 ").data [("50").data] [] 1 1).1 (by decide)).1
  · exact ((prompt_loop_bounds ("abc").data [("50").data] [] 1 1).1 (by decide)).2
  · exact (prompt_loop_bounds [] [] [("50").data] 50 50).2.1 (by decide)
